import Mathlib

/-!
# GlauberAnalysisMaker: event loop, re-weighting rejection and accumulator fills

A shallow embedding of `src/GlauberAnalysisMaker/GlauberAnalysisMaker.cxx`
(`Make`, `RunFile`, `Run`).  The collaborators whose code lives elsewhere
(the tree reader, the histogram makers, the centrality model, the random
source) are modelled by their interface: the histogram makers record the
calls they receive, the random source is a stream of samples with a read
position, the centrality model is a lookup function.
-/

/-! ## Definitions -/

namespace Glauber

/-- A C++ `Double_t`.  The file under study never does arithmetic on doubles:
it only passes them on and compares them with `>`, so a value is either a NaN,
an infinity or a finite number (every finite double is a rational; the two
signed zeros compare equal and are not told apart). -/
inductive Double_t where
  | nan
  | negInf
  | finite (q : ℚ)
  | posInf
deriving DecidableEq

namespace Double_t

/-- The C++ comparison `a > b` on doubles: false as soon as one side is NaN. -/
def gt : Double_t → Double_t → Bool
  | nan, _ => false
  | _, nan => false
  | posInf, posInf => false
  | posInf, _ => true
  | _, posInf => false
  | negInf, _ => false
  | finite _, negInf => true
  | finite a, finite b => decide (b < a)

/-- The C++ comparison `a <= b` on doubles: false as soon as one side is NaN. -/
def le : Double_t → Double_t → Bool
  | nan, _ => false
  | _, nan => false
  | negInf, _ => true
  | _, posInf => true
  | posInf, _ => false
  | finite _, negInf => false
  | finite a, finite b => decide (a ≤ b)

/-- Conversion of an unsigned integer to a double (exact below `2^53`). -/
def ofUInt (n : Nat) : Double_t := finite (n : ℚ)

/-- The literal `1.0`. -/
def one : Double_t := finite 1

/-- The literal `0.0`. -/
def zero : Double_t := finite 0

/-- The literal `-9999.`, the value a field holds when it was not computed. -/
def sentinel : Double_t := finite (-9999)

end Double_t

/-- The branches of one entry of the Glauber tree, as read by the accessors
that `Make` calls.  The accessors with an argument take the weight index
(`0`, `1` or `2`). -/
structure GlauberTreeEntry where
  GetB : Double_t
  GetNpart : Nat
  GetNcoll : Nat
  GetMultiplicity : Double_t
  GetSRP : Nat → Double_t
  GetSPP : Nat → Double_t
  GetEccRP2 : Nat → Double_t
  GetEccPP2 : Nat → Double_t
  GetEccPP3 : Nat → Double_t
  GetEccPP4 : Nat → Double_t

/-- An input source as `RunFile` sees it: `GetEntries` and `GetEntry`. -/
structure InputSource where
  GetEntries : Nat
  GetEntry : Nat → GlauberTreeEntry

/-- The fourteen histogram makers owned by the analysis maker. -/
inductive Acc where
  | ImpactParameter
  | Npart
  | Ncoll
  | Multiplicity
  | AreaRP
  | AreaPP
  | EccRP
  | EccRPM
  | EccPP (io : Fin 3)
  | EccPPM (io : Fin 3)
deriving DecidableEq

/-- All histogram makers, in the order `Init` creates them. -/
def Acc.all : List Acc :=
  [.ImpactParameter, .Npart, .Ncoll, .Multiplicity, .AreaRP, .AreaPP, .EccRP, .EccRPM,
   .EccPP 0, .EccPPM 0, .EccPP 1, .EccPPM 1, .EccPP 2, .EccPPM 2]

/-- A call received by a histogram maker: `SetXaxis(tree, centralityMaker, type)`
with the tree holding entry `ev`, or `Fill(value, weight)`. -/
inductive AccOp where
  | SetXaxis (a : Acc) (ev : GlauberTreeEntry)
  | Fill (a : Acc) (value weight : Double_t)

/-- The process-wide uniform sampler: the samples it will return, and how many
have been drawn so far. -/
structure GlauberUtilities where
  samples : Nat → Double_t
  drawn : Nat

/-- One call of `GetUniform()`: the next sample, and the sampler after it. -/
def GlauberUtilities.GetUniform (r : GlauberUtilities) : Double_t × GlauberUtilities :=
  (r.samples r.drawn, { r with drawn := r.drawn + 1 })

/-- The file system as `RunFile` and `Run` see it: the whitespace separated
words of a list file (`none` when the file cannot be opened) and the input
source stored under a path. -/
structure FileSystem where
  readList : String → Option (List String)
  openTree : String → InputSource

/-- The analysis maker together with the collaborators it drives.
The counter `mNevents` is declared in `GlauberAnalysisMaker.h`, which is not
among the sources; it is taken as an unbounded natural number (the
specification calls it "a single mutable integer").
`GetReweighting centId multiplicity` stands for
`mCentralityMaker->GetCentrality(centId)->GetReweighting(multiplicity)`;
`mGlauberTree` is the entry currently loaded in the tree; `trace` lists the
calls received by the histogram makers, oldest first; `opened` lists the paths
handed to `mGlauberTree->Open`, oldest first. -/
structure GlauberAnalysisMaker where
  mUnitWeight : Bool
  mReweighting : Bool
  mNevents : Nat
  GetReweighting : Nat → Double_t → Double_t
  mGlauberTree : GlauberTreeEntry
  random : GlauberUtilities
  trace : List AccOp
  opened : List String

namespace GlauberAnalysisMaker

/-- The call `h->SetXaxis(*mGlauberTree, *mCentralityMaker, mType)` on the
histogram maker `a`. -/
def SetXaxis (s : GlauberAnalysisMaker) (a : Acc) : GlauberAnalysisMaker :=
  { s with trace := s.trace ++ [AccOp.SetXaxis a s.mGlauberTree] }

/-- The call `h->Fill(value, weight)` on the histogram maker `a`. -/
def Fill (s : GlauberAnalysisMaker) (a : Acc) (value weight : Double_t) :
    GlauberAnalysisMaker :=
  { s with trace := s.trace ++ [AccOp.Fill a value weight] }

/-- The body of the loop of lines 209-214 of `Make`. -/
def setXaxisPP (s : GlauberAnalysisMaker) (io : Fin 3) : GlauberAnalysisMaker :=
  let s := s.SetXaxis (Acc.EccPP io)
  let s := s.SetXaxis (Acc.EccPPM io)
  s

/-- The body of the loop of lines 241-250 of `Make`. -/
def fillPP (weight : Double_t) (s : GlauberAnalysisMaker) (io : Fin 3) :
    GlauberAnalysisMaker :=
  let t := s.mGlauberTree
  let p : Double_t × Double_t :=
    if io = 0 then (t.GetEccPP2 0, t.GetEccPP2 2)
    else if io = 1 then (t.GetEccPP3 0, t.GetEccPP3 2)
    else if io = 2 then (t.GetEccPP4 0, t.GetEccPP4 2)
    else (Double_t.sentinel, Double_t.sentinel)
  let eccPP := p.1
  let eccPPM := p.2
  let s := if eccPP.gt Double_t.sentinel then s.Fill (Acc.EccPP io) eccPP weight else s
  let s := if eccPPM.gt Double_t.sentinel then s.Fill (Acc.EccPPM io) eccPPM weight else s
  s

/-- What `Make` does once the event has passed the re-weighting test
(lines 200-252). -/
def MakeAccepted (s : GlauberAnalysisMaker) (multiplicity : Double_t) :
    GlauberAnalysisMaker :=
  let t := s.mGlauberTree
  let s := s.SetXaxis Acc.ImpactParameter
  let s := s.SetXaxis Acc.Npart
  let s := s.SetXaxis Acc.Ncoll
  let s := s.SetXaxis Acc.Multiplicity
  let s := s.SetXaxis Acc.AreaRP
  let s := s.SetXaxis Acc.AreaPP
  let s := s.SetXaxis Acc.EccRP
  let s := s.SetXaxis Acc.EccRPM
  let s := [(0 : Fin 3), 1, 2].foldl setXaxisPP s
  let weight : Double_t := if s.mUnitWeight then Double_t.one else multiplicity
  let s := s.Fill Acc.ImpactParameter t.GetB Double_t.one
  let s := s.Fill Acc.Npart (Double_t.ofUInt t.GetNpart) Double_t.one
  let s := s.Fill Acc.Ncoll (Double_t.ofUInt t.GetNcoll) Double_t.one
  let s := s.Fill Acc.Multiplicity multiplicity Double_t.one
  let areaRP := t.GetSRP 0
  let s := s.Fill Acc.AreaRP areaRP weight
  let areaPP := t.GetSPP 0
  let s := if areaPP.gt Double_t.sentinel then s.Fill Acc.AreaPP areaPP weight else s
  let eccRP := t.GetEccRP2 0
  let s := if eccRP.gt Double_t.sentinel then s.Fill Acc.EccRP eccRP weight else s
  let eccRPM := t.GetEccRP2 2
  let s := if eccRP.gt Double_t.sentinel then s.Fill Acc.EccRPM eccRPM weight else s
  let s := [(0 : Fin 3), 1, 2].foldl (fillPP weight) s
  s

/-- The method `GlauberAnalysisMaker::Make`: the returned flag and the maker afterwards.
The sampler is consulted only when `mReweighting` is set (`&&` does not
evaluate its right operand otherwise). -/
def Make (s : GlauberAnalysisMaker) : Bool × GlauberAnalysisMaker :=
  let centId : Nat := 0
  let multiplicity := s.mGlauberTree.GetMultiplicity
  let reweighting : Double_t :=
    if s.mReweighting then s.GetReweighting centId multiplicity else Double_t.one
  if s.mReweighting then
    let u := s.random.GetUniform
    let s := { s with random := u.2 }
    if u.1.gt reweighting then (false, s) else (true, s.MakeAccepted multiplicity)
  else
    (true, s.MakeAccepted multiplicity)

/-- One turn of the loop of `RunFile` (lines 263-269): `Clear`, `GetEntry`,
`Make`, and the counter. -/
def eventStep (src : InputSource) (s : GlauberAnalysisMaker) (ievent : Nat) :
    GlauberAnalysisMaker :=
  let s := { s with mGlauberTree := src.GetEntry ievent }
  let r := s.Make
  let isEventOk := r.1
  let s := r.2
  if isEventOk then { s with mNevents := s.mNevents + 1 } else s

/-- The loop of `RunFile` run for its first `n` turns. -/
def eventLoop (src : InputSource) (s : GlauberAnalysisMaker) (n : Nat) :
    GlauberAnalysisMaker :=
  (List.range n).foldl (eventStep src) s

/-- The method `GlauberAnalysisMaker::RunFile`: open the source, run the loop over
its entries, close it. -/
def RunFile (fs : FileSystem) (s : GlauberAnalysisMaker) (inputFileName : String) :
    GlauberAnalysisMaker :=
  let src := fs.openTree inputFileName
  let s := { s with opened := s.opened ++ [inputFileName] }
  let nevents := src.GetEntries
  eventLoop src s nevents

/-- The method `GlauberAnalysisMaker::Run`: `none` when the list file cannot be opened
(the run aborts on `assert(fin)`). -/
def Run (fs : FileSystem) (s : GlauberAnalysisMaker) (inputFileList : String) :
    Option GlauberAnalysisMaker :=
  match fs.readList inputFileList with
  | none => none
  | some files => some (files.foldl (RunFile fs) s)

/-- The maker once `GetEntry` has loaded the entry `e` into the tree. -/
def load (s : GlauberAnalysisMaker) (e : GlauberTreeEntry) : GlauberAnalysisMaker :=
  { s with mGlauberTree := e }

/-- The flag `isEventOk` of turn `i` of the loop of `RunFile` started in `s`:
what `Make` returns once the first `i` turns are done and entry `i` is loaded. -/
def isEventOk (src : InputSource) (s : GlauberAnalysisMaker) (i : Nat) : Bool :=
  ((eventLoop src s i).load (src.GetEntry i)).Make.1

/-- The maker `RunFile` starts its loop with: the path has been opened. -/
def openFile (s : GlauberAnalysisMaker) (inputFileName : String) : GlauberAnalysisMaker :=
  { s with opened := s.opened ++ [inputFileName] }

/-- The indices of the entries of `src` that `Make` accepts when the loop of
`RunFile` starts in `s`, in input order. -/
def acceptedIndices (src : InputSource) (s : GlauberAnalysisMaker) : List Nat :=
  (List.range src.GetEntries).filter (isEventOk src s)

/-- The number of events `RunFile` accepts in the file `path` when called in `s`. -/
def acceptedIn (fs : FileSystem) (s : GlauberAnalysisMaker) (path : String) : Nat :=
  (acceptedIndices (fs.openTree path) (s.openFile path)).length

/-- The sum, over the files of a list processed in order from `s`, of the
number of events accepted in each file. -/
def acceptedTotal (fs : FileSystem) : GlauberAnalysisMaker → List String → Nat
  | _, [] => 0
  | s, path :: rest => acceptedIn fs s path + acceptedTotal fs (RunFile fs s path) rest

/-- The maker after its histogram makers received the calls `ops`. -/
def emit (s : GlauberAnalysisMaker) (ops : List AccOp) : GlauberAnalysisMaker :=
  { s with trace := s.trace ++ ops }

end GlauberAnalysisMaker

/-- The `(value, weight)` pairs of the `Fill` calls received by `a`, oldest first. -/
def fillsOf (a : Acc) (tr : List AccOp) : List (Double_t × Double_t) :=
  tr.filterMap fun op =>
    match op with
    | AccOp.Fill b v w => if b = a then some (v, w) else none
    | AccOp.SetXaxis _ _ => none

/-- The entries for which `a` received `SetXaxis`, oldest first. -/
def axesOf (a : Acc) (tr : List AccOp) : List GlauberTreeEntry :=
  tr.filterMap fun op =>
    match op with
    | AccOp.SetXaxis b ev => if b = a then some ev else none
    | AccOp.Fill _ _ _ => none

/-- Whether a call is a `Fill`. -/
def AccOp.isFill : AccOp → Bool
  | AccOp.Fill _ _ _ => true
  | AccOp.SetXaxis _ _ => false

/-- The four event-wise histogram makers. -/
def Acc.isEventWise : Acc → Bool
  | .ImpactParameter | .Npart | .Ncoll | .Multiplicity => true
  | _ => false

/-- The calls of one accepted event: `[Fill a v w]` when the guard holds. -/
def fillIf (c : Bool) (a : Acc) (v w : Double_t) : List AccOp :=
  if c then [AccOp.Fill a v w] else []

/-- The `Fill` calls of `Make` for an accepted event, in closed form. -/
def fillOps (w : Double_t) (t : GlauberTreeEntry) : List AccOp :=
  [AccOp.Fill .ImpactParameter t.GetB Double_t.one,
   AccOp.Fill .Npart (Double_t.ofUInt t.GetNpart) Double_t.one,
   AccOp.Fill .Ncoll (Double_t.ofUInt t.GetNcoll) Double_t.one,
   AccOp.Fill .Multiplicity t.GetMultiplicity Double_t.one,
   AccOp.Fill .AreaRP (t.GetSRP 0) w]
  ++ fillIf ((t.GetSPP 0).gt Double_t.sentinel) .AreaPP (t.GetSPP 0) w
  ++ fillIf ((t.GetEccRP2 0).gt Double_t.sentinel) .EccRP (t.GetEccRP2 0) w
  ++ fillIf ((t.GetEccRP2 0).gt Double_t.sentinel) .EccRPM (t.GetEccRP2 2) w
  ++ fillIf ((t.GetEccPP2 0).gt Double_t.sentinel) (.EccPP 0) (t.GetEccPP2 0) w
  ++ fillIf ((t.GetEccPP2 2).gt Double_t.sentinel) (.EccPPM 0) (t.GetEccPP2 2) w
  ++ fillIf ((t.GetEccPP3 0).gt Double_t.sentinel) (.EccPP 1) (t.GetEccPP3 0) w
  ++ fillIf ((t.GetEccPP3 2).gt Double_t.sentinel) (.EccPPM 1) (t.GetEccPP3 2) w
  ++ fillIf ((t.GetEccPP4 0).gt Double_t.sentinel) (.EccPP 2) (t.GetEccPP4 0) w
  ++ fillIf ((t.GetEccPP4 2).gt Double_t.sentinel) (.EccPPM 2) (t.GetEccPP4 2) w

/-- The `SetXaxis` calls of `Make` for an accepted event, in closed form. -/
def axisOps (t : GlauberTreeEntry) : List AccOp :=
  Acc.all.map fun a => AccOp.SetXaxis a t

/-- The value `Make` hands to `Fill` on the histogram maker `a`. -/
def Acc.field (t : GlauberTreeEntry) : Acc → Double_t
  | .ImpactParameter => t.GetB
  | .Npart => Double_t.ofUInt t.GetNpart
  | .Ncoll => Double_t.ofUInt t.GetNcoll
  | .Multiplicity => t.GetMultiplicity
  | .AreaRP => t.GetSRP 0
  | .AreaPP => t.GetSPP 0
  | .EccRP => t.GetEccRP2 0
  | .EccRPM => t.GetEccRP2 2
  | .EccPP 0 => t.GetEccPP2 0
  | .EccPP 1 => t.GetEccPP3 0
  | .EccPP 2 => t.GetEccPP4 0
  | .EccPPM 0 => t.GetEccPP2 2
  | .EccPPM 1 => t.GetEccPP3 2
  | .EccPPM 2 => t.GetEccPP4 2

/-- The test `Make` performs before `Fill` on the histogram maker `a`
(`true` where the source has no test). -/
def Acc.eligible (t : GlauberTreeEntry) : Acc → Bool
  | .ImpactParameter => true
  | .Npart => true
  | .Ncoll => true
  | .Multiplicity => true
  | .AreaRP => true
  | .AreaPP => (t.GetSPP 0).gt Double_t.sentinel
  | .EccRP => (t.GetEccRP2 0).gt Double_t.sentinel
  | .EccRPM => (t.GetEccRP2 0).gt Double_t.sentinel
  | .EccPP 0 => (t.GetEccPP2 0).gt Double_t.sentinel
  | .EccPP 1 => (t.GetEccPP3 0).gt Double_t.sentinel
  | .EccPP 2 => (t.GetEccPP4 0).gt Double_t.sentinel
  | .EccPPM 0 => (t.GetEccPP2 2).gt Double_t.sentinel
  | .EccPPM 1 => (t.GetEccPP3 2).gt Double_t.sentinel
  | .EccPPM 2 => (t.GetEccPP4 2).gt Double_t.sentinel

/-- The weight `Make` hands to `Fill` on the histogram maker `a` when the
unit-weight flag is `unit` and the entry loaded is `t`. -/
def Acc.weight (unit : Bool) (t : GlauberTreeEntry) (a : Acc) : Double_t :=
  if a.isEventWise then Double_t.one
  else if unit then Double_t.one else t.GetMultiplicity

namespace GlauberAnalysisMaker

/-- The weight `Make` gives to the geometry and eccentricity fills. -/
def weightOf (s : GlauberAnalysisMaker) : Double_t :=
  if s.mUnitWeight then Double_t.one else s.mGlauberTree.GetMultiplicity

/-- The calls of `Make` on the histogram makers for an accepted event. -/
def eventOps (s : GlauberAnalysisMaker) : List AccOp :=
  axisOps s.mGlauberTree ++ fillOps s.weightOf s.mGlauberTree

/-- The maker after one call of `GetUniform()`. -/
def draw (s : GlauberAnalysisMaker) : GlauberAnalysisMaker :=
  { s with random := s.random.GetUniform.2 }

/-- The sample the next call of `GetUniform()` returns. -/
def nextUniform (s : GlauberAnalysisMaker) : Double_t :=
  s.random.GetUniform.1

/-- The probability `Make` compares the sample with. -/
def probability (s : GlauberAnalysisMaker) : Double_t :=
  s.GetReweighting 0 s.mGlauberTree.GetMultiplicity

end GlauberAnalysisMaker

/-- The weight of a fill on `a`, given the weight `w` of the geometry fills. -/
def Acc.weightFrom (w : Double_t) (a : Acc) : Double_t :=
  if a.isEventWise then Double_t.one else w

namespace GlauberAnalysisMaker

/-- The method `GlauberAnalysisMaker::UnitWeightOn`. -/
def UnitWeightOn (s : GlauberAnalysisMaker) : GlauberAnalysisMaker :=
  { s with mUnitWeight := true }

/-- The method `GlauberAnalysisMaker::ReweightingOn`. -/
def ReweightingOn (s : GlauberAnalysisMaker) : GlauberAnalysisMaker :=
  { s with mReweighting := true }

end GlauberAnalysisMaker

/-- An entry with every field computed. -/
def entryA : GlauberTreeEntry where
  GetB := Double_t.finite 3
  GetNpart := 100
  GetNcoll := 200
  GetMultiplicity := Double_t.finite 150
  GetSRP := fun _ => Double_t.finite 20
  GetSPP := fun _ => Double_t.finite 18
  GetEccRP2 := fun _ => Double_t.finite 1
  GetEccPP2 := fun _ => Double_t.finite 1
  GetEccPP3 := fun _ => Double_t.finite 0
  GetEccPP4 := fun _ => Double_t.finite 0

/-- An entry whose areas and eccentricities all hold `-9999.`. -/
def entryB : GlauberTreeEntry where
  GetB := Double_t.finite 12
  GetNpart := 2
  GetNcoll := 1
  GetMultiplicity := Double_t.finite 4
  GetSRP := fun _ => Double_t.sentinel
  GetSPP := fun _ => Double_t.sentinel
  GetEccRP2 := fun _ => Double_t.sentinel
  GetEccPP2 := fun _ => Double_t.sentinel
  GetEccPP3 := fun _ => Double_t.sentinel
  GetEccPP4 := fun _ => Double_t.sentinel

/-- Another entry with every field computed. -/
def entryC : GlauberTreeEntry where
  GetB := Double_t.finite 7
  GetNpart := 50
  GetNcoll := 60
  GetMultiplicity := Double_t.finite 40
  GetSRP := fun _ => Double_t.finite 10
  GetSPP := fun _ => Double_t.finite 9
  GetEccRP2 := fun _ => Double_t.finite 0
  GetEccPP2 := fun _ => Double_t.finite 1
  GetEccPP3 := fun _ => Double_t.finite 1
  GetEccPP4 := fun _ => Double_t.finite 0

/-- An entry whose reaction-plane eccentricity is computed with weight index
`0` and holds `-9999.` with weight index `2`. -/
def entryD : GlauberTreeEntry where
  GetB := Double_t.finite 5
  GetNpart := 30
  GetNcoll := 35
  GetMultiplicity := Double_t.finite 25
  GetSRP := fun _ => Double_t.finite 10
  GetSPP := fun _ => Double_t.finite 9
  GetEccRP2 := fun id => if id = 2 then Double_t.sentinel else Double_t.finite 1
  GetEccPP2 := fun _ => Double_t.finite 1
  GetEccPP3 := fun _ => Double_t.finite 1
  GetEccPP4 := fun _ => Double_t.finite 0

/-- An entry whose reaction-plane eccentricity holds `-9999.` with weight index
`0` and is computed with the other weight indices. -/
def entryE : GlauberTreeEntry where
  GetB := Double_t.finite 5
  GetNpart := 30
  GetNcoll := 35
  GetMultiplicity := Double_t.finite 25
  GetSRP := fun _ => Double_t.finite 10
  GetSPP := fun _ => Double_t.finite 9
  GetEccRP2 := fun id => if id = 0 then Double_t.sentinel else Double_t.finite 1
  GetEccPP2 := fun _ => Double_t.finite 1
  GetEccPP3 := fun _ => Double_t.finite 1
  GetEccPP4 := fun _ => Double_t.finite 0

/-- The input source with the single entry `entryE`. -/
def oneEvent : InputSource where
  GetEntries := 1
  GetEntry := fun _ => entryE

/-- A file system without list file where every path holds `oneEvent`. -/
def oneEventFiles : FileSystem where
  readList := fun _ => none
  openTree := fun _ => oneEvent

/-- The input source with the three entries `entryA`, `entryB`, `entryC`. -/
def threeEvents : InputSource where
  GetEntries := 3
  GetEntry := fun i => if i = 0 then entryA else if i = 1 then entryB else entryC

/-- An input source without entries. -/
def noEvents : InputSource where
  GetEntries := 0
  GetEntry := fun _ => entryB

/-- A file system with one list file naming three paths, one of them twice. -/
def exampleFiles : FileSystem where
  readList := fun l =>
    if l = "files.list" then some ["a.root", "empty.root", "a.root"] else none
  openTree := fun path => if path = "empty.root" then noEvents else threeEvents

/-- A maker as the constructor leaves it (both flags off, counter at zero, no
call made yet), with a centrality model that answers `p` and a sampler that
returns `u` at every call. -/
def freshMaker (p u : Double_t) : GlauberAnalysisMaker where
  mUnitWeight := false
  mReweighting := false
  mNevents := 0
  GetReweighting := fun _ _ => p
  mGlauberTree := entryB
  random := ⟨fun _ => u, 0⟩
  trace := []
  opened := []

end Glauber

/-! ## Theorems -/

namespace Glauber

open GlauberAnalysisMaker

namespace GlauberAnalysisMaker

theorem emit_emit (s : GlauberAnalysisMaker) (xs ys : List AccOp) :
    (s.emit xs).emit ys = s.emit (xs ++ ys) := by
  simp [emit, List.append_assoc]

theorem SetXaxis_eq_emit (s : GlauberAnalysisMaker) (a : Acc) :
    s.SetXaxis a = s.emit [AccOp.SetXaxis a s.mGlauberTree] := rfl

theorem Fill_eq_emit (s : GlauberAnalysisMaker) (a : Acc) (v w : Double_t) :
    s.Fill a v w = s.emit [AccOp.Fill a v w] := rfl

theorem ite_emit (s : GlauberAnalysisMaker) (c : Bool) (xs ys : List AccOp) :
    (if c = true then s.emit xs else s.emit ys) = s.emit (if c = true then xs else ys) := by
  cases c <;> rfl

theorem ite_emit_self (s : GlauberAnalysisMaker) (c : Bool) (xs : List AccOp) :
    (if c = true then s.emit xs else s) = s.emit (if c = true then xs else []) := by
  cases c <;> simp [emit]

theorem ite_append_self (c : Bool) (xs ys : List AccOp) :
    (if c = true then xs ++ ys else xs) = xs ++ (if c = true then ys else []) := by
  cases c <;> simp

theorem ite_fillIf (c : Bool) (a : Acc) (v w : Double_t) :
    (if c = true then [AccOp.Fill a v w] else []) = fillIf c a v w := rfl

@[simp] theorem emit_mGlauberTree (s : GlauberAnalysisMaker) (xs : List AccOp) :
    (s.emit xs).mGlauberTree = s.mGlauberTree := rfl

@[simp] theorem emit_mUnitWeight (s : GlauberAnalysisMaker) (xs : List AccOp) :
    (s.emit xs).mUnitWeight = s.mUnitWeight := rfl

@[simp] theorem emit_mReweighting (s : GlauberAnalysisMaker) (xs : List AccOp) :
    (s.emit xs).mReweighting = s.mReweighting := rfl

@[simp] theorem emit_mNevents (s : GlauberAnalysisMaker) (xs : List AccOp) :
    (s.emit xs).mNevents = s.mNevents := rfl

@[simp] theorem emit_GetReweighting (s : GlauberAnalysisMaker) (xs : List AccOp) :
    (s.emit xs).GetReweighting = s.GetReweighting := rfl

@[simp] theorem emit_random (s : GlauberAnalysisMaker) (xs : List AccOp) :
    (s.emit xs).random = s.random := rfl

@[simp] theorem emit_opened (s : GlauberAnalysisMaker) (xs : List AccOp) :
    (s.emit xs).opened = s.opened := rfl

@[simp] theorem emit_trace (s : GlauberAnalysisMaker) (xs : List AccOp) :
    (s.emit xs).trace = s.trace ++ xs := rfl

theorem setXaxisPP_eq (s : GlauberAnalysisMaker) (io : Fin 3) :
    s.setXaxisPP io = s.emit [AccOp.SetXaxis (Acc.EccPP io) s.mGlauberTree,
      AccOp.SetXaxis (Acc.EccPPM io) s.mGlauberTree] := by
  simp [setXaxisPP, SetXaxis, emit]

theorem fillPP_zero (w : Double_t) (s : GlauberAnalysisMaker) :
    fillPP w s 0 = s.emit
      (fillIf ((s.mGlauberTree.GetEccPP2 0).gt Double_t.sentinel) (.EccPP 0)
          (s.mGlauberTree.GetEccPP2 0) w
        ++ fillIf ((s.mGlauberTree.GetEccPP2 2).gt Double_t.sentinel) (.EccPPM 0)
          (s.mGlauberTree.GetEccPP2 2) w) := by
  simp only [fillPP, if_true, Fill_eq_emit, ite_emit, ite_emit_self, ite_append_self,
    ite_fillIf, emit_emit, emit_mGlauberTree]

theorem fillPP_one (w : Double_t) (s : GlauberAnalysisMaker) :
    fillPP w s 1 = s.emit
      (fillIf ((s.mGlauberTree.GetEccPP3 0).gt Double_t.sentinel) (.EccPP 1)
          (s.mGlauberTree.GetEccPP3 0) w
        ++ fillIf ((s.mGlauberTree.GetEccPP3 2).gt Double_t.sentinel) (.EccPPM 1)
          (s.mGlauberTree.GetEccPP3 2) w) := by
  have h10 : ((1 : Fin 3) = 0) = False := by decide
  simp only [fillPP, h10, if_false, if_true, Fill_eq_emit, ite_emit, ite_emit_self,
    ite_append_self, ite_fillIf, emit_emit, emit_mGlauberTree]

theorem fillPP_two (w : Double_t) (s : GlauberAnalysisMaker) :
    fillPP w s 2 = s.emit
      (fillIf ((s.mGlauberTree.GetEccPP4 0).gt Double_t.sentinel) (.EccPP 2)
          (s.mGlauberTree.GetEccPP4 0) w
        ++ fillIf ((s.mGlauberTree.GetEccPP4 2).gt Double_t.sentinel) (.EccPPM 2)
          (s.mGlauberTree.GetEccPP4 2) w) := by
  have h20 : ((2 : Fin 3) = 0) = False := by decide
  have h21 : ((2 : Fin 3) = 1) = False := by decide
  simp only [fillPP, h20, h21, if_false, if_true, Fill_eq_emit, ite_emit, ite_emit_self,
    ite_append_self, ite_fillIf, emit_emit, emit_mGlauberTree]

theorem MakeAccepted_eq (s : GlauberAnalysisMaker) :
    s.MakeAccepted s.mGlauberTree.GetMultiplicity
      = s.emit (axisOps s.mGlauberTree ++ fillOps s.weightOf s.mGlauberTree) := by
  simp only [MakeAccepted, List.foldl_cons, List.foldl_nil, setXaxisPP_eq, fillPP_zero,
    fillPP_one, fillPP_two, SetXaxis_eq_emit, Fill_eq_emit, ite_emit, ite_emit_self,
    ite_append_self, ite_fillIf, emit_emit, emit_mGlauberTree, emit_mUnitWeight]
  simp [axisOps, fillOps, Acc.all, weightOf]

theorem Make_off (s : GlauberAnalysisMaker) (h : s.mReweighting = false) :
    s.Make = (true, s.emit s.eventOps) := by
  simp only [Make, h, MakeAccepted_eq, eventOps]
  simp

theorem Make_on (s : GlauberAnalysisMaker) (h : s.mReweighting = true) :
    s.Make = if s.nextUniform.gt s.probability = true then (false, s.draw)
      else (true, s.draw.emit s.eventOps) := by
  have h2 : s.draw.MakeAccepted s.mGlauberTree.GetMultiplicity = s.draw.emit s.eventOps :=
    MakeAccepted_eq s.draw
  show (if s.mReweighting = true then
      (if s.nextUniform.gt (if s.mReweighting = true then s.probability else Double_t.one)
          = true then (false, s.draw)
        else (true, s.draw.MakeAccepted s.mGlauberTree.GetMultiplicity))
    else _) = _
  rw [if_pos h, if_pos h, h2]

theorem emit_nil (s : GlauberAnalysisMaker) : s.emit [] = s := by
  simp [emit]

theorem Make_snd (s : GlauberAnalysisMaker) :
    s.Make.2 = (if s.mReweighting = true then s.draw else s).emit
      (if s.Make.1 = true then s.eventOps else []) := by
  cases h : s.mReweighting
  · simp [Make_off s h]
  · rw [Make_on s h]
    by_cases hu : s.nextUniform.gt s.probability = true
    · simp [hu, emit_nil]
    · simp [hu]

theorem Make_fst (s : GlauberAnalysisMaker) :
    s.Make.1 = !(s.mReweighting && s.nextUniform.gt s.probability) := by
  cases h : s.mReweighting
  · simp [Make_off s h]
  · rw [Make_on s h]
    by_cases hu : s.nextUniform.gt s.probability = true
    · simp [hu]
    · simp [hu]

theorem Make_trace (s : GlauberAnalysisMaker) :
    s.Make.2.trace = s.trace ++ (if s.Make.1 = true then s.eventOps else []) := by
  rw [Make_snd]; cases s.mReweighting <;> simp [draw]

theorem Make_mNevents (s : GlauberAnalysisMaker) : s.Make.2.mNevents = s.mNevents := by
  rw [Make_snd]; cases s.mReweighting <;> simp [draw]

theorem Make_mUnitWeight (s : GlauberAnalysisMaker) :
    s.Make.2.mUnitWeight = s.mUnitWeight := by
  rw [Make_snd]; cases s.mReweighting <;> simp [draw]

theorem Make_mReweighting (s : GlauberAnalysisMaker) :
    s.Make.2.mReweighting = s.mReweighting := by
  rw [Make_snd]; cases h : s.mReweighting <;> simp [draw, h]

theorem Make_GetReweighting (s : GlauberAnalysisMaker) :
    s.Make.2.GetReweighting = s.GetReweighting := by
  rw [Make_snd]; cases s.mReweighting <;> simp [draw]

theorem Make_opened (s : GlauberAnalysisMaker) : s.Make.2.opened = s.opened := by
  rw [Make_snd]; cases s.mReweighting <;> simp [draw]

theorem Make_mGlauberTree (s : GlauberAnalysisMaker) :
    s.Make.2.mGlauberTree = s.mGlauberTree := by
  rw [Make_snd]; cases s.mReweighting <;> simp [draw]

theorem Make_samples (s : GlauberAnalysisMaker) :
    s.Make.2.random.samples = s.random.samples := by
  rw [Make_snd]; cases s.mReweighting <;> simp [draw, GlauberUtilities.GetUniform]

theorem Make_drawn (s : GlauberAnalysisMaker) :
    s.Make.2.random.drawn = s.random.drawn + (if s.mReweighting = true then 1 else 0) := by
  rw [Make_snd]; cases s.mReweighting <;> simp [draw, GlauberUtilities.GetUniform]

@[simp] theorem load_trace (s : GlauberAnalysisMaker) (e : GlauberTreeEntry) :
    (s.load e).trace = s.trace := rfl

@[simp] theorem load_mNevents (s : GlauberAnalysisMaker) (e : GlauberTreeEntry) :
    (s.load e).mNevents = s.mNevents := rfl

@[simp] theorem load_mUnitWeight (s : GlauberAnalysisMaker) (e : GlauberTreeEntry) :
    (s.load e).mUnitWeight = s.mUnitWeight := rfl

@[simp] theorem load_mReweighting (s : GlauberAnalysisMaker) (e : GlauberTreeEntry) :
    (s.load e).mReweighting = s.mReweighting := rfl

@[simp] theorem load_GetReweighting (s : GlauberAnalysisMaker) (e : GlauberTreeEntry) :
    (s.load e).GetReweighting = s.GetReweighting := rfl

@[simp] theorem load_opened (s : GlauberAnalysisMaker) (e : GlauberTreeEntry) :
    (s.load e).opened = s.opened := rfl

@[simp] theorem load_random (s : GlauberAnalysisMaker) (e : GlauberTreeEntry) :
    (s.load e).random = s.random := rfl

@[simp] theorem load_mGlauberTree (s : GlauberAnalysisMaker) (e : GlauberTreeEntry) :
    (s.load e).mGlauberTree = e := rfl

theorem eventStep_eq (src : InputSource) (s : GlauberAnalysisMaker) (i : Nat) :
    eventStep src s i
      = if (s.load (src.GetEntry i)).Make.1 = true then
          { (s.load (src.GetEntry i)).Make.2 with
            mNevents := (s.load (src.GetEntry i)).Make.2.mNevents + 1 }
        else (s.load (src.GetEntry i)).Make.2 := rfl

theorem eventStep_trace (src : InputSource) (s : GlauberAnalysisMaker) (i : Nat) :
    (eventStep src s i).trace = s.trace ++
      (if (s.load (src.GetEntry i)).Make.1 = true then (s.load (src.GetEntry i)).eventOps
        else []) := by
  rw [eventStep_eq]; split <;> rename_i h <;> simp [Make_trace, h]

theorem eventStep_mNevents (src : InputSource) (s : GlauberAnalysisMaker) (i : Nat) :
    (eventStep src s i).mNevents
      = s.mNevents + (if (s.load (src.GetEntry i)).Make.1 = true then 1 else 0) := by
  rw [eventStep_eq]; split <;> rename_i h <;> simp [Make_mNevents, h]

theorem eventStep_mUnitWeight (src : InputSource) (s : GlauberAnalysisMaker) (i : Nat) :
    (eventStep src s i).mUnitWeight = s.mUnitWeight := by
  rw [eventStep_eq]; split <;> simp [Make_mUnitWeight]

theorem eventStep_mReweighting (src : InputSource) (s : GlauberAnalysisMaker) (i : Nat) :
    (eventStep src s i).mReweighting = s.mReweighting := by
  rw [eventStep_eq]; split <;> simp [Make_mReweighting]

theorem eventStep_GetReweighting (src : InputSource) (s : GlauberAnalysisMaker) (i : Nat) :
    (eventStep src s i).GetReweighting = s.GetReweighting := by
  rw [eventStep_eq]; split <;> simp [Make_GetReweighting]

theorem eventStep_opened (src : InputSource) (s : GlauberAnalysisMaker) (i : Nat) :
    (eventStep src s i).opened = s.opened := by
  rw [eventStep_eq]; split <;> simp [Make_opened]

theorem eventStep_samples (src : InputSource) (s : GlauberAnalysisMaker) (i : Nat) :
    (eventStep src s i).random.samples = s.random.samples := by
  rw [eventStep_eq]; split <;> simp [Make_samples]

theorem eventStep_drawn (src : InputSource) (s : GlauberAnalysisMaker) (i : Nat) :
    (eventStep src s i).random.drawn
      = s.random.drawn + (if s.mReweighting = true then 1 else 0) := by
  rw [eventStep_eq]; split <;> simp [Make_drawn]

theorem eventLoop_zero (src : InputSource) (s : GlauberAnalysisMaker) :
    eventLoop src s 0 = s := rfl

theorem eventLoop_succ (src : InputSource) (s : GlauberAnalysisMaker) (n : Nat) :
    eventLoop src s (n + 1) = eventStep src (eventLoop src s n) n := by
  simp [eventLoop, List.range_succ, List.foldl_append]

theorem eventLoop_mUnitWeight (src : InputSource) (s : GlauberAnalysisMaker) (n : Nat) :
    (eventLoop src s n).mUnitWeight = s.mUnitWeight := by
  induction n with
  | zero => rfl
  | succ n ih => rw [eventLoop_succ, eventStep_mUnitWeight, ih]

theorem eventLoop_mReweighting (src : InputSource) (s : GlauberAnalysisMaker) (n : Nat) :
    (eventLoop src s n).mReweighting = s.mReweighting := by
  induction n with
  | zero => rfl
  | succ n ih => rw [eventLoop_succ, eventStep_mReweighting, ih]

theorem eventLoop_GetReweighting (src : InputSource) (s : GlauberAnalysisMaker) (n : Nat) :
    (eventLoop src s n).GetReweighting = s.GetReweighting := by
  induction n with
  | zero => rfl
  | succ n ih => rw [eventLoop_succ, eventStep_GetReweighting, ih]

theorem eventLoop_opened (src : InputSource) (s : GlauberAnalysisMaker) (n : Nat) :
    (eventLoop src s n).opened = s.opened := by
  induction n with
  | zero => rfl
  | succ n ih => rw [eventLoop_succ, eventStep_opened, ih]

theorem eventLoop_samples (src : InputSource) (s : GlauberAnalysisMaker) (n : Nat) :
    (eventLoop src s n).random.samples = s.random.samples := by
  induction n with
  | zero => rfl
  | succ n ih => rw [eventLoop_succ, eventStep_samples, ih]

theorem eventLoop_drawn (src : InputSource) (s : GlauberAnalysisMaker) (n : Nat) :
    (eventLoop src s n).random.drawn
      = s.random.drawn + (if s.mReweighting = true then n else 0) := by
  induction n with
  | zero => simp [eventLoop_zero]
  | succ n ih =>
    rw [eventLoop_succ, eventStep_drawn, ih, eventLoop_mReweighting]
    cases s.mReweighting <;> simp; omega

/-- The acceptance test of turn `i`, read off the initial maker. -/
theorem isEventOk_eq (src : InputSource) (s : GlauberAnalysisMaker) (i : Nat) :
    isEventOk src s i
      = !(s.mReweighting &&
          (s.random.samples (s.random.drawn + i)).gt
            (s.GetReweighting 0 (src.GetEntry i).GetMultiplicity)) := by
  unfold isEventOk
  rw [Make_fst]
  simp only [load_mReweighting, load_GetReweighting, load_random, load_mGlauberTree,
    nextUniform, probability, GlauberUtilities.GetUniform,
    eventLoop_mReweighting, eventLoop_GetReweighting, eventLoop_samples, eventLoop_drawn]
  cases s.mReweighting <;> simp

/-- What turn `i` adds to the trace. -/
theorem eventLoop_succ_trace (src : InputSource) (s : GlauberAnalysisMaker) (n : Nat) :
    (eventLoop src s (n + 1)).trace = (eventLoop src s n).trace ++
      (if isEventOk src s n = true then
        axisOps (src.GetEntry n)
          ++ fillOps (if s.mUnitWeight = true then Double_t.one
              else (src.GetEntry n).GetMultiplicity) (src.GetEntry n)
       else []) := by
  rw [eventLoop_succ, eventStep_trace]
  simp only [isEventOk, eventOps, weightOf, load_mUnitWeight, load_mGlauberTree,
    eventLoop_mUnitWeight]

theorem eventLoop_succ_mNevents (src : InputSource) (s : GlauberAnalysisMaker) (n : Nat) :
    (eventLoop src s (n + 1)).mNevents
      = (eventLoop src s n).mNevents + (if isEventOk src s n = true then 1 else 0) := by
  rw [eventLoop_succ, eventStep_mNevents]
  simp only [isEventOk]

end GlauberAnalysisMaker

@[simp] theorem fillsOf_nil (a : Acc) : fillsOf a [] = [] := rfl

@[simp] theorem axesOf_nil (a : Acc) : axesOf a [] = [] := rfl

theorem fillsOf_append (a : Acc) (xs ys : List AccOp) :
    fillsOf a (xs ++ ys) = fillsOf a xs ++ fillsOf a ys := by
  simp [fillsOf, List.filterMap_append]

theorem axesOf_append (a : Acc) (xs ys : List AccOp) :
    axesOf a (xs ++ ys) = axesOf a xs ++ axesOf a ys := by
  simp [axesOf, List.filterMap_append]

theorem fillsOf_cons_Fill (a b : Acc) (v w : Double_t) (tr : List AccOp) :
    fillsOf a (AccOp.Fill b v w :: tr)
      = (if b = a then [(v, w)] else []) ++ fillsOf a tr := by
  by_cases h : b = a <;> simp [fillsOf, List.filterMap_cons, h]

theorem fillsOf_cons_SetXaxis (a b : Acc) (t : GlauberTreeEntry) (tr : List AccOp) :
    fillsOf a (AccOp.SetXaxis b t :: tr) = fillsOf a tr := by
  simp [fillsOf, List.filterMap_cons]

theorem axesOf_cons_SetXaxis (a b : Acc) (t : GlauberTreeEntry) (tr : List AccOp) :
    axesOf a (AccOp.SetXaxis b t :: tr)
      = (if b = a then [t] else []) ++ axesOf a tr := by
  by_cases h : b = a <;> simp [axesOf, List.filterMap_cons, h]

theorem axesOf_cons_Fill (a b : Acc) (v w : Double_t) (tr : List AccOp) :
    axesOf a (AccOp.Fill b v w :: tr) = axesOf a tr := by
  simp [axesOf, List.filterMap_cons]

theorem fillsOf_fillIf (a b : Acc) (c : Bool) (v w : Double_t) :
    fillsOf a (fillIf c b v w) = if b = a then (if c = true then [(v, w)] else []) else [] := by
  cases c <;> by_cases h : b = a <;> simp [fillIf, fillsOf_cons_Fill, h]

theorem axesOf_fillIf (a b : Acc) (c : Bool) (v w : Double_t) :
    axesOf a (fillIf c b v w) = [] := by
  cases c <;> simp [fillIf, axesOf_cons_Fill]

theorem fillsOf_axisOps (a : Acc) (t : GlauberTreeEntry) : fillsOf a (axisOps t) = [] := by
  simp [axisOps, Acc.all, fillsOf_cons_SetXaxis]

theorem axesOf_axisOps (a : Acc) (t : GlauberTreeEntry) : axesOf a (axisOps t) = [t] := by
  cases a with
  | EccPP io => fin_cases io <;> simp [axisOps, Acc.all, axesOf_cons_SetXaxis]
  | EccPPM io => fin_cases io <;> simp [axisOps, Acc.all, axesOf_cons_SetXaxis]
  | _ => simp [axisOps, Acc.all, axesOf_cons_SetXaxis]

theorem axesOf_fillOps (a : Acc) (w : Double_t) (t : GlauberTreeEntry) :
    axesOf a (fillOps w t) = [] := by
  simp [fillOps, axesOf_append, axesOf_cons_Fill, axesOf_fillIf]

theorem fillsOf_fillOps (a : Acc) (w : Double_t) (t : GlauberTreeEntry) :
    fillsOf a (fillOps w t)
      = if a.eligible t = true then [(a.field t, a.weightFrom w)] else [] := by
  cases a with
  | EccPP io =>
    fin_cases io <;>
      simp [fillOps, fillsOf_append, fillsOf_cons_Fill, fillsOf_fillIf, Acc.eligible,
        Acc.field, Acc.weightFrom, Acc.isEventWise]
  | EccPPM io =>
    fin_cases io <;>
      simp [fillOps, fillsOf_append, fillsOf_cons_Fill, fillsOf_fillIf, Acc.eligible,
        Acc.field, Acc.weightFrom, Acc.isEventWise]
  | _ =>
    simp [fillOps, fillsOf_append, fillsOf_cons_Fill, fillsOf_fillIf, Acc.eligible,
      Acc.field, Acc.weightFrom, Acc.isEventWise]

theorem Acc.weightFrom_eq (unit : Bool) (t : GlauberTreeEntry) (a : Acc) :
    a.weightFrom (if unit = true then Double_t.one else t.GetMultiplicity)
      = a.weight unit t := by
  simp [Acc.weightFrom, Acc.weight]

namespace GlauberAnalysisMaker

theorem eventLoop_mNevents (src : InputSource) (s : GlauberAnalysisMaker) (n : Nat) :
    (eventLoop src s n).mNevents
      = s.mNevents + ((List.range n).filter (isEventOk src s)).length := by
  induction n with
  | zero => simp [eventLoop_zero]
  | succ n ih =>
    rw [eventLoop_succ_mNevents, ih, List.range_succ, List.filter_append]
    cases h : isEventOk src s n <;> simp [List.filter_cons, h]
    omega

theorem eventLoop_axesOf (a : Acc) (src : InputSource) (s : GlauberAnalysisMaker) (n : Nat) :
    axesOf a (eventLoop src s n).trace
      = axesOf a s.trace ++ ((List.range n).filter (isEventOk src s)).map src.GetEntry := by
  induction n with
  | zero => simp [eventLoop_zero]
  | succ n ih =>
    rw [eventLoop_succ_trace, axesOf_append, ih, List.range_succ, List.filter_append,
      List.map_append, List.append_assoc]
    cases h : isEventOk src s n <;>
      simp [List.filter_cons, h, axesOf_append, axesOf_axisOps, axesOf_fillOps]

theorem eventLoop_fillsOf (a : Acc) (src : InputSource) (s : GlauberAnalysisMaker) (n : Nat) :
    fillsOf a (eventLoop src s n).trace
      = fillsOf a s.trace ++
        ((List.range n).filter
            (fun i => isEventOk src s i && a.eligible (src.GetEntry i))).map
          (fun i => (a.field (src.GetEntry i), a.weight s.mUnitWeight (src.GetEntry i))) := by
  induction n with
  | zero => simp [eventLoop_zero]
  | succ n ih =>
    rw [eventLoop_succ_trace, fillsOf_append, ih, List.range_succ, List.filter_append,
      List.map_append, List.append_assoc]
    cases h : isEventOk src s n
    · simp [List.filter_cons, h]
    · cases he : a.eligible (src.GetEntry n) <;>
        simp [List.filter_cons, h, he, fillsOf_append, fillsOf_axisOps, fillsOf_fillOps,
          Acc.weightFrom_eq]

theorem RunFile_eq (fs : FileSystem) (s : GlauberAnalysisMaker) (path : String) :
    RunFile fs s path
      = eventLoop (fs.openTree path) (s.openFile path) (fs.openTree path).GetEntries := rfl

@[simp] theorem openFile_trace (s : GlauberAnalysisMaker) (path : String) :
    (s.openFile path).trace = s.trace := rfl

@[simp] theorem openFile_mNevents (s : GlauberAnalysisMaker) (path : String) :
    (s.openFile path).mNevents = s.mNevents := rfl

@[simp] theorem openFile_mUnitWeight (s : GlauberAnalysisMaker) (path : String) :
    (s.openFile path).mUnitWeight = s.mUnitWeight := rfl

@[simp] theorem openFile_mReweighting (s : GlauberAnalysisMaker) (path : String) :
    (s.openFile path).mReweighting = s.mReweighting := rfl

@[simp] theorem openFile_GetReweighting (s : GlauberAnalysisMaker) (path : String) :
    (s.openFile path).GetReweighting = s.GetReweighting := rfl

@[simp] theorem openFile_random (s : GlauberAnalysisMaker) (path : String) :
    (s.openFile path).random = s.random := rfl

@[simp] theorem openFile_opened (s : GlauberAnalysisMaker) (path : String) :
    (s.openFile path).opened = s.opened ++ [path] := rfl

theorem RunFile_mNevents (fs : FileSystem) (s : GlauberAnalysisMaker) (path : String) :
    (RunFile fs s path).mNevents = s.mNevents + acceptedIn fs s path := by
  rw [RunFile_eq, eventLoop_mNevents]; rfl

theorem RunFile_opened (fs : FileSystem) (s : GlauberAnalysisMaker) (path : String) :
    (RunFile fs s path).opened = s.opened ++ [path] := by
  rw [RunFile_eq, eventLoop_opened]; rfl

theorem foldl_RunFile_opened (fs : FileSystem) (files : List String)
    (s : GlauberAnalysisMaker) :
    (files.foldl (RunFile fs) s).opened = s.opened ++ files := by
  induction files generalizing s with
  | nil => simp
  | cons p ps ih => rw [List.foldl_cons, ih, RunFile_opened]; simp

theorem foldl_RunFile_mNevents (fs : FileSystem) (files : List String)
    (s : GlauberAnalysisMaker) :
    (files.foldl (RunFile fs) s).mNevents = s.mNevents + acceptedTotal fs s files := by
  induction files generalizing s with
  | nil => simp [acceptedTotal]
  | cons p ps ih => rw [List.foldl_cons, ih, RunFile_mNevents, acceptedTotal]; omega

/-- Two makers that agree on trace, counter and unit-weight flag, and whose
acceptance flags agree on the first `n` turns, agree on trace and counter
after `n` turns. -/
theorem eventLoop_congr (src : InputSource) (s1 s2 : GlauberAnalysisMaker) (n : Nat)
    (ht : s1.trace = s2.trace) (hu : s1.mUnitWeight = s2.mUnitWeight)
    (hn : s1.mNevents = s2.mNevents)
    (hok : ∀ i, i < n → isEventOk src s1 i = isEventOk src s2 i) :
    (eventLoop src s1 n).trace = (eventLoop src s2 n).trace
      ∧ (eventLoop src s1 n).mNevents = (eventLoop src s2 n).mNevents := by
  induction n with
  | zero => exact ⟨ht, hn⟩
  | succ n ih =>
    have ih2 := ih (fun i hi => hok i (Nat.lt_succ_of_lt hi))
    rw [eventLoop_succ_trace, eventLoop_succ_trace, eventLoop_succ_mNevents,
      eventLoop_succ_mNevents, ih2.1, ih2.2, hok n (Nat.lt_succ_self n), hu]
    exact ⟨rfl, rfl⟩

theorem Make_fillsOf (s : GlauberAnalysisMaker) (a : Acc) :
    fillsOf a s.Make.2.trace = fillsOf a s.trace ++
      (if (s.Make.1 && a.eligible s.mGlauberTree) = true then
        [(a.field s.mGlauberTree, a.weight s.mUnitWeight s.mGlauberTree)] else []) := by
  rw [Make_trace, fillsOf_append]
  cases h : s.Make.1
  · simp
  · cases he : a.eligible s.mGlauberTree <;>
      simp [eventOps, weightOf, fillsOf_append, fillsOf_axisOps, fillsOf_fillOps, he,
        Acc.weightFrom_eq]

end GlauberAnalysisMaker

theorem mem_fillOps_weight (w0 : Double_t) (t : GlauberTreeEntry) (a : Acc) (v w : Double_t)
    (h : AccOp.Fill a v w ∈ fillOps w0 t) : w = a.weightFrom w0 := by
  simp only [fillOps, fillIf, List.mem_append, List.mem_cons, List.mem_singleton,
    List.not_mem_nil, or_false] at h
  rcases h with ((((((((((h | h | h | h | h) | h) | h) | h) | h) | h) | h) | h) | h) | h)
  all_goals first
    | (injection h with h1 h2 h3; subst h1; subst h3; rfl)
    | (split at h
       · simp only [List.mem_singleton] at h
         injection h with h1 h2 h3
         subst h1; subst h3; rfl
       · simp at h)

theorem not_Fill_mem_axisOps (t : GlauberTreeEntry) (a : Acc) (v w : Double_t) :
    AccOp.Fill a v w ∉ axisOps t := by
  simp [axisOps]

theorem isFill_of_mem_fillOps (w0 : Double_t) (t : GlauberTreeEntry) (op : AccOp)
    (h : op ∈ fillOps w0 t) : op.isFill = true := by
  simp only [fillOps, fillIf, List.mem_append, List.mem_cons, List.mem_singleton,
    List.not_mem_nil, or_false] at h
  rcases h with ((((((((((h | h | h | h | h) | h) | h) | h) | h) | h) | h) | h) | h) | h)
  all_goals first
    | (subst h; rfl)
    | (split at h
       · simp only [List.mem_singleton] at h
         subst h; rfl
       · simp at h)

namespace GlauberAnalysisMaker

theorem eventLoop_of_rejected (src : InputSource) (s : GlauberAnalysisMaker) (n : Nat)
    (h : ∀ i, i < n → isEventOk src s i = false) :
    (eventLoop src s n).trace = s.trace ∧ (eventLoop src s n).mNevents = s.mNevents := by
  induction n with
  | zero => exact ⟨rfl, rfl⟩
  | succ n ih =>
    have ih2 := ih (fun i hi => h i (Nat.lt_succ_of_lt hi))
    rw [eventLoop_succ_trace, eventLoop_succ_mNevents, h n (Nat.lt_succ_self n), ih2.1, ih2.2]
    simp

theorem eventLoop_of_accepted (src : InputSource) (s : GlauberAnalysisMaker) (n : Nat)
    (h : ∀ i, i < n → isEventOk src s i = true) :
    (eventLoop src s n).mNevents = s.mNevents + n := by
  induction n with
  | zero => rfl
  | succ n ih =>
    have ih2 := ih (fun i hi => h i (Nat.lt_succ_of_lt hi))
    rw [eventLoop_succ_mNevents, h n (Nat.lt_succ_self n), ih2]
    simp; omega

@[simp] theorem ReweightingOn_mReweighting (s : GlauberAnalysisMaker) :
    s.ReweightingOn.mReweighting = true := rfl

@[simp] theorem ReweightingOn_trace (s : GlauberAnalysisMaker) :
    s.ReweightingOn.trace = s.trace := rfl

@[simp] theorem ReweightingOn_mNevents (s : GlauberAnalysisMaker) :
    s.ReweightingOn.mNevents = s.mNevents := rfl

@[simp] theorem ReweightingOn_mUnitWeight (s : GlauberAnalysisMaker) :
    s.ReweightingOn.mUnitWeight = s.mUnitWeight := rfl

@[simp] theorem ReweightingOn_GetReweighting (s : GlauberAnalysisMaker) :
    s.ReweightingOn.GetReweighting = s.GetReweighting := rfl

@[simp] theorem ReweightingOn_random (s : GlauberAnalysisMaker) :
    s.ReweightingOn.random = s.random := rfl

end GlauberAnalysisMaker

theorem Double_t.gt_one_eq_false (u : Double_t) (h : u.le Double_t.one = true) :
    u.gt Double_t.one = false := by
  cases u <;> simp_all [Double_t.le, Double_t.gt, Double_t.one]

theorem Acc.mem_all (a : Acc) : a ∈ Acc.all := by
  cases a with
  | EccPP io => fin_cases io <;> simp [Acc.all]
  | EccPPM io => fin_cases io <;> simp [Acc.all]
  | _ => simp [Acc.all]

/-- C10: for an accepted event, `Make` fills AreaRP with the reaction-plane area
without any test; it fills AreaPP iff `areaPP > -9999`, EccRP iff
`eccRP > -9999`, EccRPM with `eccRPM` iff the base value `eccRP > -9999`
(whatever `eccRPM` is), and, for each order, EccPP[io] and EccPPM[io] iff their
own value is `> -9999`; the value `-9999` itself does not pass the test. -/
theorem Make_exact_fill_set (s : GlauberAnalysisMaker) (hacc : s.Make.1 = true) :
    fillsOf Acc.AreaRP s.Make.2.trace
        = fillsOf Acc.AreaRP s.trace ++ [(s.mGlauberTree.GetSRP 0, s.weightOf)]
    ∧ fillsOf Acc.AreaPP s.Make.2.trace
        = fillsOf Acc.AreaPP s.trace ++
          (if (s.mGlauberTree.GetSPP 0).gt Double_t.sentinel = true
            then [(s.mGlauberTree.GetSPP 0, s.weightOf)] else [])
    ∧ fillsOf Acc.EccRP s.Make.2.trace
        = fillsOf Acc.EccRP s.trace ++
          (if (s.mGlauberTree.GetEccRP2 0).gt Double_t.sentinel = true
            then [(s.mGlauberTree.GetEccRP2 0, s.weightOf)] else [])
    ∧ fillsOf Acc.EccRPM s.Make.2.trace
        = fillsOf Acc.EccRPM s.trace ++
          (if (s.mGlauberTree.GetEccRP2 0).gt Double_t.sentinel = true
            then [(s.mGlauberTree.GetEccRP2 2, s.weightOf)] else [])
    ∧ fillsOf (Acc.EccPP 0) s.Make.2.trace
        = fillsOf (Acc.EccPP 0) s.trace ++
          (if (s.mGlauberTree.GetEccPP2 0).gt Double_t.sentinel = true
            then [(s.mGlauberTree.GetEccPP2 0, s.weightOf)] else [])
    ∧ fillsOf (Acc.EccPPM 0) s.Make.2.trace
        = fillsOf (Acc.EccPPM 0) s.trace ++
          (if (s.mGlauberTree.GetEccPP2 2).gt Double_t.sentinel = true
            then [(s.mGlauberTree.GetEccPP2 2, s.weightOf)] else [])
    ∧ fillsOf (Acc.EccPP 1) s.Make.2.trace
        = fillsOf (Acc.EccPP 1) s.trace ++
          (if (s.mGlauberTree.GetEccPP3 0).gt Double_t.sentinel = true
            then [(s.mGlauberTree.GetEccPP3 0, s.weightOf)] else [])
    ∧ fillsOf (Acc.EccPPM 1) s.Make.2.trace
        = fillsOf (Acc.EccPPM 1) s.trace ++
          (if (s.mGlauberTree.GetEccPP3 2).gt Double_t.sentinel = true
            then [(s.mGlauberTree.GetEccPP3 2, s.weightOf)] else [])
    ∧ fillsOf (Acc.EccPP 2) s.Make.2.trace
        = fillsOf (Acc.EccPP 2) s.trace ++
          (if (s.mGlauberTree.GetEccPP4 0).gt Double_t.sentinel = true
            then [(s.mGlauberTree.GetEccPP4 0, s.weightOf)] else [])
    ∧ fillsOf (Acc.EccPPM 2) s.Make.2.trace
        = fillsOf (Acc.EccPPM 2) s.trace ++
          (if (s.mGlauberTree.GetEccPP4 2).gt Double_t.sentinel = true
            then [(s.mGlauberTree.GetEccPP4 2, s.weightOf)] else [])
    ∧ Double_t.sentinel.gt Double_t.sentinel = false := by
  refine ⟨?_, ?_, ?_, ?_, ?_, ?_, ?_, ?_, ?_, ?_, by decide⟩ <;>
    · rw [Make_fillsOf, hacc]
      simp only [Bool.true_and, Acc.eligible, Acc.field, Acc.weight, Acc.isEventWise,
        weightOf]
      simp

/-- C10, at a concrete accepted event whose modified reaction-plane
eccentricity holds `-9999.` while the base one is computed. -/
theorem Make_exact_fill_set_witness :
    ((freshMaker Double_t.one Double_t.zero).load entryD).Make.1 = true
    ∧ fillsOf Acc.AreaRP ((freshMaker Double_t.one Double_t.zero).load entryD).Make.2.trace
        = [(Double_t.finite 10, Double_t.finite 25)]
    ∧ fillsOf Acc.EccRPM ((freshMaker Double_t.one Double_t.zero).load entryD).Make.2.trace
        = [(Double_t.sentinel, Double_t.finite 25)] :=
  ⟨by decide,
   (Make_exact_fill_set ((freshMaker Double_t.one Double_t.zero).load entryD) (by decide)).1,
   (Make_exact_fill_set ((freshMaker Double_t.one Double_t.zero).load entryD)
      (by decide)).2.2.2.1⟩

/-- C1: evaluation of `Make` on three accepted events where it departs from the
claim. With the reaction-plane area at `-9999.` (`entryB`), AreaRP still
receives a fill, of value `-9999.`, while AreaPP, whose field is also at
`-9999.`, receives none. With the modified reaction-plane eccentricity at
`-9999.` and the base one computed (`entryD`), EccRPM still receives a fill, of
value `-9999.`. With the base one at `-9999.` and the modified one computed
(`entryE`), EccRPM receives no fill although its own field is available. -/
theorem Make_sentinel_still_filled :
    (Acc.AreaRP.field entryB).le Double_t.sentinel = true
    ∧ ((freshMaker Double_t.one Double_t.zero).load entryB).Make.1 = true
    ∧ fillsOf Acc.AreaRP ((freshMaker Double_t.one Double_t.zero).load entryB).trace = []
    ∧ fillsOf Acc.AreaRP ((freshMaker Double_t.one Double_t.zero).load entryB).Make.2.trace
        = [(Double_t.sentinel, Double_t.finite 4)]
    ∧ (Acc.AreaPP.field entryB).le Double_t.sentinel = true
    ∧ fillsOf Acc.AreaPP ((freshMaker Double_t.one Double_t.zero).load entryB).Make.2.trace
        = []
    ∧ (Acc.EccRPM.field entryD).le Double_t.sentinel = true
    ∧ ((freshMaker Double_t.one Double_t.zero).load entryD).Make.1 = true
    ∧ fillsOf Acc.EccRPM ((freshMaker Double_t.one Double_t.zero).load entryD).trace = []
    ∧ fillsOf Acc.EccRPM ((freshMaker Double_t.one Double_t.zero).load entryD).Make.2.trace
        = [(Double_t.sentinel, Double_t.finite 25)]
    ∧ (Acc.EccRPM.field entryE).gt Double_t.sentinel = true
    ∧ (Acc.EccRPM.field entryE).le Double_t.sentinel = false
    ∧ ((freshMaker Double_t.one Double_t.zero).load entryE).Make.1 = true
    ∧ fillsOf Acc.EccRPM ((freshMaker Double_t.one Double_t.zero).load entryE).Make.2.trace
        = [] := by
  decide

/-- C2: the calls `Make` adds to the trace are such that every fill on one of
the four event-wise histogram makers has weight `1.0` whatever the unit-weight
flag, and every other fill has weight `1.0` when the flag is on, whatever the
multiplicity, and exactly the multiplicity of the event when it is off; for an
accepted event the four event-wise fills are made. -/
theorem Make_weight_policy (s : GlauberAnalysisMaker) :
    ∃ ops : List AccOp, s.Make.2.trace = s.trace ++ ops
      ∧ (∀ a v w, AccOp.Fill a v w ∈ ops →
          (a.isEventWise = true → w = Double_t.one)
          ∧ (a.isEventWise = false → s.mUnitWeight = true → w = Double_t.one)
          ∧ (a.isEventWise = false → s.mUnitWeight = false →
              w = s.mGlauberTree.GetMultiplicity))
      ∧ (s.Make.1 = true →
          fillsOf Acc.ImpactParameter ops = [(s.mGlauberTree.GetB, Double_t.one)]
          ∧ fillsOf Acc.Npart ops
              = [(Double_t.ofUInt s.mGlauberTree.GetNpart, Double_t.one)]
          ∧ fillsOf Acc.Ncoll ops
              = [(Double_t.ofUInt s.mGlauberTree.GetNcoll, Double_t.one)]
          ∧ fillsOf Acc.Multiplicity ops
              = [(s.mGlauberTree.GetMultiplicity, Double_t.one)]) := by
  refine ⟨if s.Make.1 = true then s.eventOps else [], Make_trace s, ?_, ?_⟩
  · intro a v w hmem
    cases hm : s.Make.1
    · simp [hm] at hmem
    · simp only [hm, if_true, eventOps, List.mem_append] at hmem
      rcases hmem with hmem | hmem
      · exact absurd hmem (not_Fill_mem_axisOps _ _ _ _)
      · have hw := mem_fillOps_weight _ _ _ _ _ hmem
        subst hw
        refine ⟨?_, ?_, ?_⟩
        · intro h; simp [Acc.weightFrom, h]
        · intro h hu; simp [Acc.weightFrom, h, weightOf, hu]
        · intro h hu; simp [Acc.weightFrom, h, weightOf, hu]
  · intro hm
    simp only [hm, if_true, eventOps, fillsOf_append, fillsOf_axisOps, fillsOf_fillOps]
    simp [Acc.eligible, Acc.field, Acc.weightFrom, Acc.isEventWise]

/-- C6: with re-weighting on, `Make` moves the sampler by exactly one sample
`u`, returns false iff `u > p` where `p` is the re-weighting probability of
centrality index 0 at the multiplicity of the event, and a rejected event
leaves the trace of the histogram makers untouched and the counter as it
was, in `Make` and in the turn of the loop of `RunFile` that called it. -/
theorem Make_rejection (s : GlauberAnalysisMaker) (hrw : s.mReweighting = true) :
    s.Make.2.random.drawn = s.random.drawn + 1
    ∧ s.Make.2.random.samples = s.random.samples
    ∧ (s.Make.1 = false ↔
        (s.random.samples s.random.drawn).gt
          (s.GetReweighting 0 s.mGlauberTree.GetMultiplicity) = true)
    ∧ (s.Make.1 = false → s.Make.2.trace = s.trace ∧ s.Make.2.mNevents = s.mNevents)
    ∧ (∀ (src : InputSource) (i : Nat), (s.load (src.GetEntry i)).Make.1 = false →
        (eventStep src s i).trace = s.trace
        ∧ (eventStep src s i).mNevents = s.mNevents) := by
  refine ⟨?_, Make_samples s, ?_, ?_, ?_⟩
  · rw [Make_drawn, hrw]; simp
  · rw [Make_fst, hrw]
    simp [nextUniform, probability, GlauberUtilities.GetUniform]
  · intro h
    rw [Make_trace, Make_mNevents, h]
    simp
  · intro src i h
    rw [eventStep_trace, eventStep_mNevents, h]
    simp

/-- C6, at a concrete maker with re-weighting on, sample `1.0` and probability
`0.0`: the event is rejected and nothing is recorded. -/
theorem Make_rejection_witness :
    ((freshMaker Double_t.zero Double_t.one).ReweightingOn.load entryA).mReweighting = true
    ∧ ((freshMaker Double_t.zero Double_t.one).ReweightingOn.load entryA).Make.1 = false
    ∧ ((freshMaker Double_t.zero Double_t.one).ReweightingOn.load entryA).Make.2.random.drawn
        = 1
    ∧ ((freshMaker Double_t.zero Double_t.one).ReweightingOn.load entryA).Make.2.trace = [] :=
  ⟨rfl, by decide,
   (Make_rejection ((freshMaker Double_t.zero Double_t.one).ReweightingOn.load entryA) rfl).1,
   ((Make_rejection ((freshMaker Double_t.zero Double_t.one).ReweightingOn.load entryA)
      rfl).2.2.2.1 (by decide)).1⟩

/-- C3 as stated fails: with re-weighting on and probability `0.0`, a sampler
that returns `0.0` makes `RunFile` accept every entry, since `0.0 > 0.0` is
false. -/
theorem RunFile_zero_probability_accepts :
    (freshMaker Double_t.zero Double_t.zero).ReweightingOn.mReweighting = true
    ∧ (∀ m, (freshMaker Double_t.zero Double_t.zero).ReweightingOn.GetReweighting 0 m
        = Double_t.zero)
    ∧ (exampleFiles.openTree "a.root").GetEntries = 3
    ∧ isEventOk (exampleFiles.openTree "a.root")
        ((freshMaker Double_t.zero Double_t.zero).ReweightingOn.openFile "a.root") 0 = true
    ∧ (RunFile exampleFiles (freshMaker Double_t.zero Double_t.zero).ReweightingOn
        "a.root").mNevents = 3 :=
  ⟨rfl, fun _ => rfl, by decide, by decide, by decide⟩

/-- C3, amended: with re-weighting on, probability `0.0` at every multiplicity
and every uniform sample strictly greater than `0.0`, `RunFile` accepts no
event of any input source: `Make` returns false at every turn, the counter keeps
its value (0 for a maker that has accepted nothing yet) and no histogram maker
is called. -/
theorem RunFile_zero_probability (fs : FileSystem) (s : GlauberAnalysisMaker)
    (path : String) (hrw : s.mReweighting = true)
    (hp : ∀ m, s.GetReweighting 0 m = Double_t.zero)
    (hu : ∀ k, (s.random.samples k).gt Double_t.zero = true) :
    (∀ i, isEventOk (fs.openTree path) (s.openFile path) i = false)
    ∧ (RunFile fs s path).mNevents = s.mNevents
    ∧ (RunFile fs s path).trace = s.trace := by
  have hok : ∀ i, isEventOk (fs.openTree path) (s.openFile path) i = false := by
    intro i
    rw [isEventOk_eq]
    simp [hrw, hp, hu]
  have h := eventLoop_of_rejected (fs.openTree path) (s.openFile path)
    (fs.openTree path).GetEntries (fun i _ => hok i)
  exact ⟨hok, h.2, h.1⟩

/-- C3 amended, at a concrete run: three entries, probability `0.0`, samples
all `1.0`. -/
theorem RunFile_zero_probability_witness :
    (freshMaker Double_t.zero Double_t.one).ReweightingOn.mReweighting = true
    ∧ (∀ m, (freshMaker Double_t.zero Double_t.one).ReweightingOn.GetReweighting 0 m
        = Double_t.zero)
    ∧ (∀ k, ((freshMaker Double_t.zero Double_t.one).ReweightingOn.random.samples k).gt
        Double_t.zero = true)
    ∧ (RunFile exampleFiles (freshMaker Double_t.zero Double_t.one).ReweightingOn
        "a.root").mNevents = 0 :=
  ⟨rfl, fun _ => rfl, fun _ => rfl,
   (RunFile_zero_probability exampleFiles
      (freshMaker Double_t.zero Double_t.one).ReweightingOn "a.root" rfl (fun _ => rfl)
      (fun _ => rfl)).2.1⟩

/-- C4: for a maker with re-weighting off, a probability `1.0` at every
multiplicity and samples in `[0, 1]`, switching re-weighting on changes
nothing to what `RunFile` records: every entry is accepted, and the trace of
the histogram makers and the counter end as in the run with re-weighting
off. -/
theorem RunFile_unit_probability (fs : FileSystem) (s : GlauberAnalysisMaker)
    (path : String) (hoff : s.mReweighting = false)
    (hp : ∀ m, s.GetReweighting 0 m = Double_t.one)
    (hu : ∀ k, Double_t.zero.le (s.random.samples k) = true
      ∧ (s.random.samples k).le Double_t.one = true) :
    (∀ i, isEventOk (fs.openTree path) (s.ReweightingOn.openFile path) i = true)
    ∧ (RunFile fs s.ReweightingOn path).mNevents
        = s.mNevents + (fs.openTree path).GetEntries
    ∧ (RunFile fs s.ReweightingOn path).trace = (RunFile fs s path).trace
    ∧ (RunFile fs s.ReweightingOn path).mNevents = (RunFile fs s path).mNevents := by
  have hon : ∀ i, isEventOk (fs.openTree path) (s.ReweightingOn.openFile path) i = true := by
    intro i
    rw [isEventOk_eq]
    simp [hp, Double_t.gt_one_eq_false _ (hu _).2]
  have hof : ∀ i, isEventOk (fs.openTree path) (s.openFile path) i = true := by
    intro i
    rw [isEventOk_eq]
    simp [hoff]
  have hc := eventLoop_congr (fs.openTree path) (s.ReweightingOn.openFile path)
    (s.openFile path) (fs.openTree path).GetEntries rfl rfl rfl
    (fun i _ => by rw [hon i, hof i])
  refine ⟨hon, ?_, hc.1, hc.2⟩
  rw [RunFile_eq, eventLoop_of_accepted _ _ _ (fun i _ => hon i)]
  rfl

/-- C4, at a concrete run: three entries, probability `1.0`, samples all
`1.0` (the upper end of the interval). -/
theorem RunFile_unit_probability_witness :
    (freshMaker Double_t.one Double_t.one).mReweighting = false
    ∧ (∀ m, (freshMaker Double_t.one Double_t.one).GetReweighting 0 m = Double_t.one)
    ∧ (∀ k, Double_t.zero.le ((freshMaker Double_t.one Double_t.one).random.samples k) = true
        ∧ ((freshMaker Double_t.one Double_t.one).random.samples k).le Double_t.one = true)
    ∧ (RunFile exampleFiles (freshMaker Double_t.one Double_t.one).ReweightingOn
        "a.root").mNevents = 0 + (exampleFiles.openTree "a.root").GetEntries
    ∧ (RunFile exampleFiles (freshMaker Double_t.one Double_t.one).ReweightingOn
        "a.root").trace
        = (RunFile exampleFiles (freshMaker Double_t.one Double_t.one) "a.root").trace :=
  ⟨rfl, fun _ => rfl, fun _ => ⟨rfl, rfl⟩,
   (RunFile_unit_probability exampleFiles (freshMaker Double_t.one Double_t.one) "a.root"
      rfl (fun _ => rfl) (fun _ => ⟨rfl, rfl⟩)).2.1,
   (RunFile_unit_probability exampleFiles (freshMaker Double_t.one Double_t.one) "a.root"
      rfl (fun _ => rfl) (fun _ => ⟨rfl, rfl⟩)).2.2.1⟩

/-- C5: evaluation of `RunFile` with re-weighting off on a source of one entry
whose base reaction-plane eccentricity is at `-9999.` and whose modified one is
computed (`entryE`). `Make` returns true, the counter goes from 0 to 1 and the
four event-wise histogram makers receive one fill each, but EccRPM, whose own
field is available, receives no fill: the test before its fill reads the base
value. -/
theorem RunFile_no_reweighting_EccRPM :
    (freshMaker Double_t.one Double_t.zero).mReweighting = false
    ∧ (oneEventFiles.openTree "e.root").GetEntries = 1
    ∧ isEventOk (oneEventFiles.openTree "e.root")
        ((freshMaker Double_t.one Double_t.zero).openFile "e.root") 0 = true
    ∧ (RunFile oneEventFiles (freshMaker Double_t.one Double_t.zero) "e.root").mNevents = 1
    ∧ fillsOf Acc.ImpactParameter
        (RunFile oneEventFiles (freshMaker Double_t.one Double_t.zero) "e.root").trace
        = [(Double_t.finite 5, Double_t.one)]
    ∧ fillsOf Acc.Npart
        (RunFile oneEventFiles (freshMaker Double_t.one Double_t.zero) "e.root").trace
        = [(Double_t.ofUInt 30, Double_t.one)]
    ∧ fillsOf Acc.Ncoll
        (RunFile oneEventFiles (freshMaker Double_t.one Double_t.zero) "e.root").trace
        = [(Double_t.ofUInt 35, Double_t.one)]
    ∧ fillsOf Acc.Multiplicity
        (RunFile oneEventFiles (freshMaker Double_t.one Double_t.zero) "e.root").trace
        = [(Double_t.finite 25, Double_t.one)]
    ∧ (Acc.EccRPM.field ((oneEventFiles.openTree "e.root").GetEntry 0)).gt
        Double_t.sentinel = true
    ∧ (Acc.EccRPM.field ((oneEventFiles.openTree "e.root").GetEntry 0)).le
        Double_t.sentinel = false
    ∧ fillsOf Acc.EccRPM
        (RunFile oneEventFiles (freshMaker Double_t.one Double_t.zero) "e.root").trace
        = [] := by
  decide

/-- C7: evaluation of `RunFile` on the scenario of three entries (all fields
computed, areas and eccentricities at `-9999.`, all fields computed) from a
fresh maker with re-weighting off and unit weighting on. The counter ends at 3,
ImpactParameter receives three fills of weight `1.0` and AreaPP the two fills
of the first and third entries, but AreaRP receives three fills, the second
one with the value `-9999.`: its fill is behind no test. -/
theorem RunFile_three_events_AreaRP :
    (exampleFiles.openTree "a.root").GetEntries = 3
    ∧ Acc.AreaRP.field ((exampleFiles.openTree "a.root").GetEntry 1) = Double_t.sentinel
    ∧ Acc.AreaPP.field ((exampleFiles.openTree "a.root").GetEntry 1) = Double_t.sentinel
    ∧ (freshMaker Double_t.one Double_t.zero).UnitWeightOn.mReweighting = false
    ∧ (freshMaker Double_t.one Double_t.zero).UnitWeightOn.mUnitWeight = true
    ∧ (RunFile exampleFiles (freshMaker Double_t.one Double_t.zero).UnitWeightOn
        "a.root").mNevents = 3
    ∧ fillsOf Acc.ImpactParameter
        (RunFile exampleFiles (freshMaker Double_t.one Double_t.zero).UnitWeightOn
          "a.root").trace
        = [(Double_t.finite 3, Double_t.one), (Double_t.finite 12, Double_t.one),
           (Double_t.finite 7, Double_t.one)]
    ∧ fillsOf Acc.AreaPP
        (RunFile exampleFiles (freshMaker Double_t.one Double_t.zero).UnitWeightOn
          "a.root").trace
        = [(Double_t.finite 18, Double_t.one), (Double_t.finite 9, Double_t.one)]
    ∧ fillsOf Acc.AreaRP
        (RunFile exampleFiles (freshMaker Double_t.one Double_t.zero).UnitWeightOn
          "a.root").trace
        = [(Double_t.finite 20, Double_t.one), (Double_t.sentinel, Double_t.one),
           (Double_t.finite 10, Double_t.one)] := by
  decide

/-- C8: when the list file opens, `Run` is `RunFile` folded over the listed
paths from first to last: the tree is opened once per listed path, in list
order, repeated paths included; the counter ends at its initial value plus the
sum over the listed files of the number of events accepted in each; and a file
without entries accepts nothing and leaves counter and histogram makers as
they were. -/
theorem Run_processes_each_file (fs : FileSystem) (s : GlauberAnalysisMaker)
    (list : String) (files : List String) (h : fs.readList list = some files) :
    Run fs s list = some (files.foldl (RunFile fs) s)
    ∧ (files.foldl (RunFile fs) s).opened = s.opened ++ files
    ∧ (files.foldl (RunFile fs) s).mNevents = s.mNevents + acceptedTotal fs s files
    ∧ (∀ (s0 : GlauberAnalysisMaker) (p : String), (fs.openTree p).GetEntries = 0 →
        acceptedIn fs s0 p = 0
        ∧ (RunFile fs s0 p).mNevents = s0.mNevents
        ∧ (RunFile fs s0 p).trace = s0.trace) := by
  refine ⟨?_, foldl_RunFile_opened fs files s, foldl_RunFile_mNevents fs files s, ?_⟩
  · simp [Run, h]
  · intro s0 p hp
    refine ⟨?_, ?_, ?_⟩
    · simp [acceptedIn, acceptedIndices, hp]
    · rw [RunFile_eq, hp]; rfl
    · rw [RunFile_eq, hp]; rfl

/-- C8, at a concrete list of three paths, the first and last being the same
file of three entries and the middle one a file without entries. -/
theorem Run_processes_each_file_witness :
    exampleFiles.readList "files.list" = some ["a.root", "empty.root", "a.root"]
    ∧ (["a.root", "empty.root", "a.root"].foldl (RunFile exampleFiles)
        (freshMaker Double_t.one Double_t.zero)).opened
        = (freshMaker Double_t.one Double_t.zero).opened
          ++ ["a.root", "empty.root", "a.root"]
    ∧ (["a.root", "empty.root", "a.root"].foldl (RunFile exampleFiles)
        (freshMaker Double_t.one Double_t.zero)).mNevents
        = (freshMaker Double_t.one Double_t.zero).mNevents
          + acceptedTotal exampleFiles (freshMaker Double_t.one Double_t.zero)
              ["a.root", "empty.root", "a.root"]
    ∧ acceptedTotal exampleFiles (freshMaker Double_t.one Double_t.zero)
        ["a.root", "empty.root", "a.root"] = 6 :=
  ⟨by decide,
   (Run_processes_each_file exampleFiles (freshMaker Double_t.one Double_t.zero)
      "files.list" ["a.root", "empty.root", "a.root"] (by decide)).2.1,
   (Run_processes_each_file exampleFiles (freshMaker Double_t.one Double_t.zero)
      "files.list" ["a.root", "empty.root", "a.root"] (by decide)).2.2.1,
   by decide⟩

/-- C9: the fourteen histogram makers are all in `Acc.all`, once each; an
accepted `Make` first calls `SetXaxis` on each of them once, with the current
entry, and only then fills, while a rejected `Make` calls none; an event is
rejected exactly when re-weighting is on and the sample exceeds the
probability; hence after `RunFile` every histogram maker has had its axis set
for the same entries, the accepted ones in input order, and its fills come from
accepted entries only. -/
theorem accumulators_observe_same_events (fs : FileSystem) (s : GlauberAnalysisMaker)
    (path : String) :
    ((∀ a : Acc, a ∈ Acc.all) ∧ Acc.all.Nodup ∧ Acc.all.length = 14)
    ∧ ((s.Make.1 = true → ∃ fills : List AccOp, (∀ op ∈ fills, op.isFill = true)
          ∧ s.Make.2.trace
              = s.trace ++ Acc.all.map (fun a => AccOp.SetXaxis a s.mGlauberTree) ++ fills)
        ∧ (s.Make.1 = false → s.Make.2.trace = s.trace))
    ∧ (∀ i, isEventOk (fs.openTree path) (s.openFile path) i
        = !(s.mReweighting &&
            (s.random.samples (s.random.drawn + i)).gt
              (s.GetReweighting 0 ((fs.openTree path).GetEntry i).GetMultiplicity)))
    ∧ (∀ a : Acc, axesOf a (RunFile fs s path).trace
        = axesOf a s.trace ++
          (acceptedIndices (fs.openTree path) (s.openFile path)).map
            (fs.openTree path).GetEntry)
    ∧ (∀ a : Acc, fillsOf a (RunFile fs s path).trace
        = fillsOf a s.trace ++
          ((acceptedIndices (fs.openTree path) (s.openFile path)).filter
              (fun i => a.eligible ((fs.openTree path).GetEntry i))).map
            (fun i => (a.field ((fs.openTree path).GetEntry i),
              a.weight s.mUnitWeight ((fs.openTree path).GetEntry i)))) := by
  refine ⟨⟨Acc.mem_all, by decide, rfl⟩, ?_, ?_, ?_, ?_⟩
  · constructor
    · intro hm
      refine ⟨fillOps s.weightOf s.mGlauberTree,
        fun op hop => isFill_of_mem_fillOps _ _ op hop, ?_⟩
      rw [Make_trace, hm]
      simp [eventOps, axisOps]
    · intro hm
      rw [Make_trace, hm]
      simp
  · intro i
    rw [isEventOk_eq]
    rfl
  · intro a
    rw [RunFile_eq, eventLoop_axesOf]
    rfl
  · intro a
    rw [RunFile_eq, eventLoop_fillsOf, acceptedIndices, List.filter_filter]
    simp only [openFile_trace, openFile_mUnitWeight, Bool.and_comm]

end Glauber
